import Mathlib

/-
Verification development for the polymarket-mcp-server core:
the rate-limited request governor (token bucket plus 429 backoff) in
src/polymarket_mcp/utils/rate_limiter.py and the WebSocket subscription
manager in src/polymarket_mcp/utils/websocket_manager.py.
Time stamps and token counts are modelled as rationals; the monotonic
clock is an explicit parameter threaded through each call.
-/

namespace PolymarketMCP

/-! ## Token bucket (rate_limiter.py, class TokenBucket) -/

/-- Endpoint categories of rate_limiter.py (enum EndpointCategory). -/
inductive EndpointCategory
  | CLOB_GENERAL
  | MARKET_DATA
  | BATCH_OPS
  | TRADING_BURST
  | TRADING_SUSTAINED
  | GAMMA_API
  | DATA_API
deriving DecidableEq, Repr

/-- Configuration record for one bucket (dataclass RateLimitConfig). -/
structure RateLimitConfig where
  max_tokens : ℚ
  refill_rate : ℚ
  window_seconds : ℚ
deriving DecidableEq, Repr

/-- The RATE_LIMITS table of rate_limiter.py. -/
def RATE_LIMITS : List (EndpointCategory × RateLimitConfig) :=
  [ (EndpointCategory.CLOB_GENERAL, ⟨5000, 500, 10⟩),
    (EndpointCategory.MARKET_DATA, ⟨200, 20, 10⟩),
    (EndpointCategory.BATCH_OPS, ⟨80, 8, 10⟩),
    (EndpointCategory.TRADING_BURST, ⟨2400, 240, 10⟩),
    (EndpointCategory.TRADING_SUSTAINED, ⟨24000, 40, 600⟩),
    (EndpointCategory.GAMMA_API, ⟨750, 75, 10⟩),
    (EndpointCategory.DATA_API, ⟨200, 20, 10⟩) ]

/-- State of one token bucket: TokenBucket.__init__ keeps max_tokens,
refill_rate, the current float token count and the last refill stamp. -/
structure TokenBucket where
  max_tokens : ℚ
  refill_rate : ℚ
  tokens : ℚ
  last_refill : ℚ
deriving DecidableEq, Repr

/-- TokenBucket.__init__: the bucket starts full at clock value now. -/
def TokenBucket.fresh (maxTokens refillRate now : ℚ) : TokenBucket :=
  ⟨maxTokens, refillRate, maxTokens, now⟩

/-- TokenBucket._refill: tokens = min(max_tokens, tokens + elapsed * refill_rate),
last_refill = now. -/
def TokenBucket.refill (b : TokenBucket) (now : ℚ) : TokenBucket :=
  { b with
    tokens := min b.max_tokens (b.tokens + (now - b.last_refill) * b.refill_rate),
    last_refill := now }

/-- One iteration of the loop in TokenBucket.acquire, observed at clock
value now: refill, then grant n tokens when n <= tokens (returning true)
and otherwise leave the refilled state unchanged (returning false; the
source then sleeps and runs another iteration at a later clock value). -/
def TokenBucket.tryAcquire (b : TokenBucket) (now n : ℚ) : TokenBucket × Bool :=
  let b1 := b.refill now
  if n ≤ b1.tokens then ({ b1 with tokens := b1.tokens - n }, true) else (b1, false)

/-- Run a sequence of acquire-loop iterations; each list entry is a pair of
the clock value of the iteration and the requested token count. -/
def runBucket : TokenBucket → List (ℚ × ℚ) → TokenBucket
  | b, [] => b
  | b, (t, n) :: rest => runBucket (b.tryAcquire t n).1 rest

/-- Total number of tokens granted along a sequence of iterations. -/
def grantedTotal : TokenBucket → List (ℚ × ℚ) → ℚ
  | _, [] => 0
  | b, (t, n) :: rest =>
      (if (b.tryAcquire t n).2 then n else 0) + grantedTotal (b.tryAcquire t n).1 rest

/-- Every bucket state reached along a sequence of iterations. -/
def bucketStates : TokenBucket → List (ℚ × ℚ) → List TokenBucket
  | b, [] => [b]
  | b, (t, n) :: rest => b :: bucketStates (b.tryAcquire t n).1 rest

/-- The clock values of a step sequence are non-decreasing and start no
earlier than the given stamp (the monotonic clock never runs backwards). -/
def timesOk : ℚ → List (ℚ × ℚ) → Bool
  | _, [] => true
  | t0, (t, _) :: rest => if t0 ≤ t then timesOk t rest else false

lemma tryAcquire_max (b : TokenBucket) (t n : ℚ) :
    (b.tryAcquire t n).1.max_tokens = b.max_tokens := by
  simp only [TokenBucket.tryAcquire, TokenBucket.refill]
  split <;> rfl

lemma tryAcquire_rate (b : TokenBucket) (t n : ℚ) :
    (b.tryAcquire t n).1.refill_rate = b.refill_rate := by
  simp only [TokenBucket.tryAcquire, TokenBucket.refill]
  split <;> rfl

lemma tryAcquire_last (b : TokenBucket) (t n : ℚ) :
    (b.tryAcquire t n).1.last_refill = t := by
  simp only [TokenBucket.tryAcquire, TokenBucket.refill]
  split <;> rfl

lemma tryAcquire_bounds (b : TokenBucket) (t n : ℚ)
    (h0 : 0 ≤ b.tokens) (h1 : b.tokens ≤ b.max_tokens)
    (ht : b.last_refill ≤ t) (hr : 0 ≤ b.refill_rate) (hn : 0 ≤ n) :
    0 ≤ (b.tryAcquire t n).1.tokens ∧ (b.tryAcquire t n).1.tokens ≤ b.max_tokens := by
  have hadd : 0 ≤ (t - b.last_refill) * b.refill_rate :=
    mul_nonneg (by linarith) hr
  have hminle : min b.max_tokens (b.tokens + (t - b.last_refill) * b.refill_rate) ≤
      b.max_tokens := min_le_left _ _
  have hminge : 0 ≤ min b.max_tokens (b.tokens + (t - b.last_refill) * b.refill_rate) :=
    le_min (by linarith) (by linarith)
  simp only [TokenBucket.tryAcquire, TokenBucket.refill]
  split
  · next hcase =>
    constructor
    · simp only []
      linarith [hcase]
    · simp only []
      linarith
  · exact ⟨hminge, hminle⟩

lemma tryAcquire_conservation (b : TokenBucket) (t n : ℚ) :
    (if (b.tryAcquire t n).2 then n else 0) + (b.tryAcquire t n).1.tokens ≤
      b.tokens + (t - b.last_refill) * b.refill_rate := by
  have hminle : min b.max_tokens (b.tokens + (t - b.last_refill) * b.refill_rate) ≤
      b.tokens + (t - b.last_refill) * b.refill_rate := min_le_right _ _
  simp only [TokenBucket.tryAcquire, TokenBucket.refill]
  split
  · simp only [if_pos rfl, if_true]
    linarith
  · simp

lemma runBucket_max (steps : List (ℚ × ℚ)) :
    ∀ b : TokenBucket, (runBucket b steps).max_tokens = b.max_tokens := by
  induction steps with
  | nil => intro b; rfl
  | cons p rest ih =>
      intro b
      obtain ⟨t, n⟩ := p
      simp only [runBucket]
      rw [ih, tryAcquire_max]

lemma runBucket_rate (steps : List (ℚ × ℚ)) :
    ∀ b : TokenBucket, (runBucket b steps).refill_rate = b.refill_rate := by
  induction steps with
  | nil => intro b; rfl
  | cons p rest ih =>
      intro b
      obtain ⟨t, n⟩ := p
      simp only [runBucket]
      rw [ih, tryAcquire_rate]

lemma timesOk_head {t0 t n : ℚ} {rest : List (ℚ × ℚ)}
    (h : timesOk t0 ((t, n) :: rest) = true) : t0 ≤ t ∧ timesOk t rest = true := by
  simp only [timesOk] at h
  split at h
  · next hle => exact ⟨hle, h⟩
  · exact absurd h (by simp)

lemma runBucket_last_ge (steps : List (ℚ × ℚ)) :
    ∀ b : TokenBucket, timesOk b.last_refill steps = true →
      b.last_refill ≤ (runBucket b steps).last_refill := by
  induction steps with
  | nil => intro b _; exact le_refl _
  | cons p rest ih =>
      intro b h
      obtain ⟨t, n⟩ := p
      obtain ⟨hle, hrest⟩ := timesOk_head h
      simp only [runBucket]
      have h1 : (b.tryAcquire t n).1.last_refill = t := tryAcquire_last b t n
      have := ih (b.tryAcquire t n).1 (by rw [h1]; exact hrest)
      rw [h1] at this
      linarith

lemma runBucket_last_le (steps : List (ℚ × ℚ)) :
    ∀ (b : TokenBucket) (M : ℚ), timesOk b.last_refill steps = true →
      (∀ p ∈ steps, p.1 ≤ M) → b.last_refill ≤ M →
      (runBucket b steps).last_refill ≤ M := by
  induction steps with
  | nil => intro b M _ _ hM; exact hM
  | cons p rest ih =>
      intro b M h hall hM
      obtain ⟨t, n⟩ := p
      obtain ⟨hle, hrest⟩ := timesOk_head h
      simp only [runBucket]
      have h1 : (b.tryAcquire t n).1.last_refill = t := tryAcquire_last b t n
      refine ih (b.tryAcquire t n).1 M (by rw [h1]; exact hrest) ?_ ?_
      · intro q hq; exact hall q (List.mem_cons_of_mem _ hq)
      · rw [h1]; exact hall (t, n) (List.mem_cons_self _ _)

lemma bucketStates_bounds (steps : List (ℚ × ℚ)) :
    ∀ b : TokenBucket, 0 ≤ b.tokens → b.tokens ≤ b.max_tokens →
      0 ≤ b.refill_rate → timesOk b.last_refill steps = true →
      (∀ p ∈ steps, 0 ≤ p.2) →
      ∀ s ∈ bucketStates b steps, 0 ≤ s.tokens ∧ s.tokens ≤ b.max_tokens := by
  induction steps with
  | nil =>
      intro b h0 h1 _ _ _ s hs
      simp only [bucketStates, List.mem_singleton] at hs
      subst hs; exact ⟨h0, h1⟩
  | cons p rest ih =>
      intro b h0 h1 hr h hall s hs
      obtain ⟨t, n⟩ := p
      obtain ⟨hle, hrest⟩ := timesOk_head h
      simp only [bucketStates, List.mem_cons] at hs
      rcases hs with hs | hs
      · subst hs; exact ⟨h0, h1⟩
      · have hb := tryAcquire_bounds b t n h0 h1 hle hr
          (hall (t, n) (List.mem_cons_self _ _))
        have hmax := tryAcquire_max b t n
        have hrate := tryAcquire_rate b t n
        have hlast := tryAcquire_last b t n
        have := ih (b.tryAcquire t n).1
          hb.1 (by rw [hmax]; exact hb.2) (by rw [hrate]; exact hr)
          (by rw [hlast]; exact hrest)
          (fun q hq => hall q (List.mem_cons_of_mem _ hq)) s hs
        rw [hmax] at this
        exact this

lemma runBucket_conservation (steps : List (ℚ × ℚ)) :
    ∀ b : TokenBucket, timesOk b.last_refill steps = true →
      grantedTotal b steps + (runBucket b steps).tokens ≤
        b.tokens + ((runBucket b steps).last_refill - b.last_refill) * b.refill_rate := by
  induction steps with
  | nil =>
      intro b _
      simp only [grantedTotal, runBucket, sub_self, zero_mul, add_zero, zero_add, le_refl]
  | cons p rest ih =>
      intro b h
      obtain ⟨t, n⟩ := p
      obtain ⟨hle, hrest⟩ := timesOk_head h
      simp only [grantedTotal, runBucket]
      have hstep := tryAcquire_conservation b t n
      have hlast := tryAcquire_last b t n
      have hrate := tryAcquire_rate b t n
      have hih := ih (b.tryAcquire t n).1 (by rw [hlast]; exact hrest)
      rw [hlast, hrate] at hih
      have hrr : (runBucket (b.tryAcquire t n).1 rest).refill_rate = b.refill_rate := by
        rw [runBucket_rate, hrate]
      nlinarith [hih, hstep]

lemma runBucket_mem_states (steps : List (ℚ × ℚ)) :
    ∀ b : TokenBucket, runBucket b steps ∈ bucketStates b steps := by
  induction steps with
  | nil => intro b; simp [runBucket, bucketStates]
  | cons p rest ih =>
      intro b
      obtain ⟨t, n⟩ := p
      simp only [runBucket, bucketStates]
      exact List.mem_cons_of_mem _ (ih _)

/-- Claim C1: for every sequence of acquire iterations on a fresh Token
Bucket with capacity C and refill rate R > 0, run at non-decreasing clock
values, the token count always stays within 0 <= tokens <= C, and the
total number of tokens granted over a window of length T starting at the
creation stamp never exceeds C + R*T. -/
theorem C1_bucket_invariant (C R t0 T : ℚ) (steps : List (ℚ × ℚ))
    (hC : 0 ≤ C) (hR : 0 < R) (hT : 0 ≤ T)
    (htimes : timesOk t0 steps = true)
    (hn : ∀ p ∈ steps, 0 ≤ p.2)
    (hwin : ∀ p ∈ steps, p.1 ≤ t0 + T) :
    (∀ s ∈ bucketStates (TokenBucket.fresh C R t0) steps,
        0 ≤ s.tokens ∧ s.tokens ≤ C) ∧
    grantedTotal (TokenBucket.fresh C R t0) steps ≤ C + R * T := by
  set b0 := TokenBucket.fresh C R t0 with hb0
  have hmax : b0.max_tokens = C := rfl
  have hrate : b0.refill_rate = R := rfl
  have hlast : b0.last_refill = t0 := rfl
  have htok : b0.tokens = C := rfl
  have hbounds := bucketStates_bounds steps b0
    (by rw [htok]; exact hC) (by rw [htok, hmax]) (by rw [hrate]; exact hR.le)
    (by rw [hlast]; exact htimes) hn
  constructor
  · intro s hs
    have := hbounds s hs
    rw [hmax] at this
    exact this
  · have hcons := runBucket_conservation steps b0 (by rw [hlast]; exact htimes)
    have hfin := hbounds (runBucket b0 steps) (runBucket_mem_states steps b0)
    have hlend : (runBucket b0 steps).last_refill ≤ t0 + T := by
      refine runBucket_last_le steps b0 (t0 + T) (by rw [hlast]; exact htimes) hwin ?_
      rw [hlast]; linarith
    have hlge : t0 ≤ (runBucket b0 steps).last_refill := by
      have := runBucket_last_ge steps b0 (by rw [hlast]; exact htimes)
      rw [hlast] at this
      exact this
    rw [htok, hrate, hlast] at hcons
    have hmul : ((runBucket b0 steps).last_refill - t0) * R ≤ T * R := by
      apply mul_le_mul_of_nonneg_right _ hR.le
      linarith
    nlinarith [hfin.1]

/-- Witness for claim C1 at a concrete bucket and step sequence. -/
theorem C1_bucket_invariant_witness :
    (0 ≤ (TokenBucket.fresh 1 1 0).tokens ∧ (TokenBucket.fresh 1 1 0).tokens ≤ 1) ∧
    grantedTotal (TokenBucket.fresh 1 1 0) [(0, 1), (1, 1)] ≤ 1 + 1 * 1 := by
  have h := C1_bucket_invariant 1 1 0 1 [(0, 1), (1, 1)]
    (by norm_num) (by norm_num) (by norm_num)
    (by decide) (by decide) (by norm_num)
  exact ⟨h.1 (TokenBucket.fresh 1 1 0) (by simp [bucketStates]), h.2⟩

/-! ## Rate limiter: 429 backoff (rate_limiter.py, RateLimiter.handle_429_error) -/

/-- The exponential-backoff branch of RateLimiter.handle_429_error: when the
stored backoff deadline is still in the future, the new duration doubles the
remaining time capped at 60 seconds; otherwise it restarts at 1 second. -/
def expBackoffTime (currentUntil now : ℚ) : ℚ :=
  if now < currentUntil then min ((currentUntil - now) * 2) 60 else 1

/-- RateLimiter.handle_429_error as a function from the stored backoff
deadline for the category, the current clock value and the optional
Retry-After header to the new stored deadline. A Retry-After value of 0 is
falsy in the source and falls through to the exponential branch. -/
def handle429Until (currentUntil now : ℚ) (retryAfter : Option ℤ) : ℚ :=
  let backoffTime : ℚ :=
    match retryAfter with
    | some r => if r = 0 then expBackoffTime currentUntil now else (r : ℚ)
    | none => expBackoffTime currentUntil now
  now + backoffTime

/-- Counterexample to claim C2: on a fresh category a 429 at clock 0 stores
a 1-second backoff (deadline 1); a second 429 at clock 9/10, before that
deadline expires, produces duration min(2 * 1/10, 60) = 1/5, which is
strictly smaller than the previous duration 1, so successive backoff
durations for calls issued inside the active window are not non-decreasing. -/
theorem C2_counterexample :
    handle429Until 0 0 none = 1 ∧
    handle429Until 1 (9/10) none = 9/10 + 1/5 ∧
    (9 : ℚ)/10 < 1 ∧ (1 : ℚ)/5 < 1 := by
  refine ⟨?_, ?_, by norm_num, by norm_num⟩
  · simp only [handle429Until, expBackoffTime]
    norm_num
  · simp only [handle429Until, expBackoffTime]
    norm_num

/-- Claim C2 as amended: without a Retry-After value, a call issued while
the prior backoff is still active stores duration min(2 * remaining, 60);
this is at least the remaining duration (hence the deadline never moves
earlier) whenever the remaining duration is at most the 60-second ceiling,
and it never exceeds 60. The duration relative to the previous full
duration can shrink. A call issued at or after the prior deadline resets
the duration to the base 1 second. -/
theorem C2_backoff_amended (u t : ℚ) :
    (t < u → u - t ≤ 60 →
        handle429Until u t none = t + min ((u - t) * 2) 60 ∧
        u - t ≤ handle429Until u t none - t ∧
        handle429Until u t none - t ≤ 60 ∧
        u ≤ handle429Until u t none) ∧
    (u ≤ t → handle429Until u t none = t + 1) := by
  constructor
  · intro hlt hcap
    have hdef : handle429Until u t none = t + min ((u - t) * 2) 60 := by
      simp only [handle429Until, expBackoffTime, if_pos hlt]
    refine ⟨hdef, ?_, ?_, ?_⟩
    · rw [hdef]
      have : u - t ≤ min ((u - t) * 2) 60 := le_min (by linarith) hcap
      linarith
    · rw [hdef]
      have : min ((u - t) * 2) 60 ≤ 60 := min_le_right _ _
      linarith
    · rw [hdef]
      have : u - t ≤ min ((u - t) * 2) 60 := le_min (by linarith) hcap
      linarith
  · intro hge
    simp only [handle429Until, expBackoffTime, if_neg (not_lt.mpr hge)]

/-- Witness for the amended claim C2 at concrete deadlines and clocks. -/
theorem C2_backoff_amended_witness :
    (handle429Until 2 1 none = 1 + min (((2 : ℚ) - 1) * 2) 60 ∧
      (2 : ℚ) - 1 ≤ handle429Until 2 1 none - 1 ∧
      handle429Until 2 1 none - 1 ≤ 60 ∧
      (2 : ℚ) ≤ handle429Until 2 1 none) ∧
    handle429Until 1 5 none = 5 + 1 :=
  ⟨(C2_backoff_amended 2 1).1 (by norm_num) (by norm_num),
   (C2_backoff_amended 1 5).2 (by norm_num)⟩

/-! ## Rate limiter: governor acquire (rate_limiter.py, RateLimiter.acquire) -/

/-- Replace the value stored under a key in an association list, appending
the pair when the key is absent (dict item assignment). -/
def updateAssoc {κ α : Type} [BEq κ] : List (κ × α) → κ → α → List (κ × α)
  | [], k, v => [(k, v)]
  | (k0, v0) :: rest, k, v =>
      if k0 == k then (k0, v) :: rest else (k0, v0) :: updateAssoc rest k v

/-- TokenBucket.acquire with the blocking loop unrolled once: refill at the
call clock; if enough tokens are present grant at once with zero wait,
otherwise sleep max((n - tokens) / refill_rate, 1/100) and grant after the
second refill. For 0 < refill_rate and n <= max_tokens the second refill
provably reaches n tokens, so one sleep is exactly the behaviour of the
source loop; for n > max_tokens the source loop never terminates, which the
source documents as a caller contract rather than checking. -/
def TokenBucket.acquireWithWait (b : TokenBucket) (now n : ℚ) : ℚ × TokenBucket :=
  let b1 := b.refill now
  if n ≤ b1.tokens then (0, { b1 with tokens := b1.tokens - n })
  else
    let sleep := max ((n - b1.tokens) / b.refill_rate) (1/100)
    let b2 := b1.refill (now + sleep)
    (sleep, { b2 with tokens := b2.tokens - n })

/-- State of the rate governor: one token bucket per category plus the
429 backoff deadlines, both keyed by category. The key type is generic
because the source performs an unchecked dict lookup on its argument. -/
structure RateLimiterState (κ : Type) where
  buckets : List (κ × TokenBucket)
  backoff429 : List (κ × ℚ)

/-- RateLimiter.acquire: an unknown category returns a wait of 0.0 with
only a logged warning (fail-open); a known category first waits out any
active 429 backoff (when retry_on_429 is set) and then acquires from the
category bucket, returning the total wait. -/
def rlAcquire {κ : Type} [BEq κ] (s : RateLimiterState κ) (cat : κ)
    (n now : ℚ) (retryOn429 : Bool) : ℚ × RateLimiterState κ :=
  match s.buckets.lookup cat with
  | none => (0, s)
  | some bucket =>
      let backoffUntil := (s.backoff429.lookup cat).getD 0
      let bwait := if retryOn429 && decide (now < backoffUntil) then backoffUntil - now else 0
      let result := bucket.acquireWithWait (now + bwait) n
      (bwait + result.1, { s with buckets := updateAssoc s.buckets cat result.2 })

/-- Claim C7: acquiring for a category that has no bucket in the governor
map never throttles and never raises: the wait is 0.0 and the whole state
(buckets and backoff map) is returned unchanged. -/
theorem C7_unknown_category_noop {κ : Type} [BEq κ] (s : RateLimiterState κ)
    (cat : κ) (n now : ℚ) (r : Bool)
    (h : s.buckets.lookup cat = none) :
    rlAcquire s cat n now r = (0, s) := by
  simp only [rlAcquire, h]

/-- Witness for claim C7: a governor state holding only the CLOB_GENERAL
bucket, asked for MARKET_DATA. -/
theorem C7_unknown_category_noop_witness :
    rlAcquire
      ⟨[(EndpointCategory.CLOB_GENERAL, TokenBucket.fresh 5000 500 0)], []⟩
      EndpointCategory.MARKET_DATA 1 0 true =
      (0, ⟨[(EndpointCategory.CLOB_GENERAL, TokenBucket.fresh 5000 500 0)], []⟩) :=
  C7_unknown_category_noop _ EndpointCategory.MARKET_DATA 1 0 true (by decide)

/-! ## WebSocket manager: data model (websocket_manager.py) -/

/-- Channel types of websocket_manager.py (enum ChannelType). -/
inductive ChannelType
  | CLOB_USER
  | CLOB_MARKET
  | ACTIVITY
  | CRYPTO_PRICES
deriving DecidableEq, Repr

/-- String value of each channel tag. -/
def ChannelType.value : ChannelType → String
  | .CLOB_USER => "user"
  | .CLOB_MARKET => "market"
  | .ACTIVITY => "activity"
  | .CRYPTO_PRICES => "crypto_prices"

/-- Event types of websocket_manager.py (enum EventType). -/
inductive EventType
  | order
  | trade
  | price_change
  | agg_orderbook
  | last_trade_price
  | tick_size_change
  | market_created
  | market_resolved
  | trades
  | orders_matched
  | crypto_update
deriving DecidableEq, Repr

/-- String value of each event tag (CRYPTO_UPDATE is the string value of
the crypto price feed tag in the source). -/
def EventType.value : EventType → String
  | .order => "order"
  | .trade => "trade"
  | .price_change => "price_change"
  | .agg_orderbook => "agg_orderbook"
  | .last_trade_price => "last_trade_price"
  | .tick_size_change => "tick_size_change"
  | .market_created => "market_created"
  | .market_resolved => "market_resolved"
  | .trades => "trades"
  | .orders_matched => "orders_matched"
  | .crypto_update => "update"

/-- Active subscription record (pydantic model Subscription); the two
datetime fields of the source carry no behaviour used by the claims and
are omitted. -/
structure Subscription where
  id : String
  type : EventType
  channel : ChannelType
  market_ids : Option (List String)
  token_ids : Option (List String)
  callback_type : String
  events_received : ℕ
deriving DecidableEq, Repr

/-- Python truthiness of an optional list: None and the empty list are
falsy. -/
def listTruthy : Option (List String) → Bool
  | none => false
  | some l => !l.isEmpty

/-- Python truthiness of an optional string: None and the empty string are
falsy. -/
def strOptTruthy : Option String → Bool
  | none => false
  | some s => !(s == "")

/-- A wire-level subscribe or unsubscribe frame (the JSON message built by
_send_subscription and _send_unsubscription); markets and assets keys are
present only when the corresponding filter list is truthy. -/
structure WireFrame where
  msgType : String
  channel : String
  event : String
  markets : Option (List String)
  assets : Option (List String)
deriving DecidableEq, Repr

/-- The subscribe frame _send_subscription builds for a subscription. -/
def buildSubscribeFrame (sub : Subscription) : WireFrame :=
  { msgType := "subscribe",
    channel := sub.channel.value,
    event := sub.type.value,
    markets := if listTruthy sub.market_ids then sub.market_ids else none,
    assets := if listTruthy sub.token_ids then sub.token_ids else none }

/-- The unsubscribe frame _send_unsubscription builds (no filter keys). -/
def buildUnsubscribeFrame (sub : Subscription) : WireFrame :=
  { msgType := "unsubscribe",
    channel := sub.channel.value,
    event := sub.type.value,
    markets := none,
    assets := none }

/-- Which of the two sockets a channel uses: CLOB_USER and CLOB_MARKET go
over the CLOB socket, ACTIVITY and CRYPTO_PRICES over the real-time one. -/
def usesClobSocket : ChannelType → Bool
  | .CLOB_USER => true
  | .CLOB_MARKET => true
  | .ACTIVITY => false
  | .CRYPTO_PRICES => false

/-- State of the WebSocket manager (the mutable attributes of
WebSocketManager that the claims exercise). The subscriptions dict is a
list of records with unique ids; market_subscriptions and
token_subscriptions are the two secondary indexes mapping a market or
token id to the subscription ids filtered on it. sentFrames records every
frame successfully written to either socket, in order. -/
structure WSState where
  subscriptions : List Subscription
  market_subscriptions : List (String × List String)
  token_subscriptions : List (String × List String)
  clob_connected : Bool
  realtime_connected : Bool
  authenticated : Bool
  reconnect_attempts : ℕ
  reconnect_count : ℕ
  sentFrames : List WireFrame
deriving DecidableEq, Repr

/-- Connected flag of the socket a channel uses. -/
def socketConnected (s : WSState) (ch : ChannelType) : Bool :=
  if usesClobSocket ch then s.clob_connected else s.realtime_connected

/-- The RuntimeError message _send_subscription raises when the socket a
channel needs is not connected. -/
def socketErrorMsg (ch : ChannelType) : String :=
  if usesClobSocket ch then "CLOB WebSocket not connected"
  else "Real-time WebSocket not connected"

/-! ## Secondary indexes (defaultdict of sets keyed by market or token id) -/

/-- Read an index entry; a missing key reads as the empty set. -/
def indexGet (idx : List (String × List String)) (key : String) : List String :=
  match idx.find? (fun p => p.1 == key) with
  | some p => p.2
  | none => []

/-- defaultdict(set)[key].add(sid): insert sid into the entry for key,
creating the entry when absent and keeping entries duplicate-free. -/
def indexAdd : List (String × List String) → String → String → List (String × List String)
  | [], key, sid => [(key, [sid])]
  | (k, ids) :: rest, key, sid =>
      if k == key then (k, if sid ∈ ids then ids else ids ++ [sid]) :: rest
      else (k, ids) :: indexAdd rest key sid

/-- defaultdict(set)[key].discard(sid): remove sid from the entry for key;
the defaultdict access creates an empty entry when the key is absent. -/
def indexDiscard : List (String × List String) → String → String → List (String × List String)
  | [], key, _ => [(key, [])]
  | (k, ids) :: rest, key, sid =>
      if k == key then (k, ids.filter (fun x => !(x == sid))) :: rest
      else (k, ids) :: indexDiscard rest key sid

/-- Add a subscription id under every id of an optional filter list
(the indexing loops of WebSocketManager.subscribe). -/
def addFilters (idx : List (String × List String)) (ids : Option (List String))
    (sid : String) : List (String × List String) :=
  match ids with
  | some l => l.foldl (fun acc k => indexAdd acc k sid) idx
  | none => idx

/-- Discard a subscription id under every id of an optional filter list
(the removal loops of WebSocketManager.unsubscribe). -/
def discardFilters (idx : List (String × List String)) (ids : Option (List String))
    (sid : String) : List (String × List String) :=
  match ids with
  | some l => l.foldl (fun acc k => indexDiscard acc k sid) idx
  | none => idx

/-! ## Subscribe, unsubscribe, reconnect -/

/-- _send_subscription: pick the socket for the subscription channel,
raise RuntimeError when it is not connected, otherwise write the subscribe
frame. Exceptions are modelled by the Except error branch; the state is
returned alongside so a caller that stores state before sending keeps it. -/
def sendSubscription (s : WSState) (sub : Subscription) : Except String WSState :=
  if socketConnected s sub.channel then
    Except.ok { s with sentFrames := s.sentFrames ++ [buildSubscribeFrame sub] }
  else
    Except.error (socketErrorMsg sub.channel)

/-- WebSocketManager.subscribe: reject CLOB_USER subscriptions while not
authenticated; otherwise build the record (the fresh uuid is the newId
argument), store it in the registry and both secondary indexes, then send
the subscribe frame. An exception from the send propagates as the error
result while the mutated state is kept, exactly as in the source where the
registry writes precede the send. -/
def subscribe (s : WSState) (newId : String) (et : EventType) (ch : ChannelType)
    (marketIds tokenIds : Option (List String)) (cbType : String) :
    Except String String × WSState :=
  if ch = ChannelType.CLOB_USER ∧ s.authenticated = false then
    (Except.error "CLOB authentication required for user subscriptions", s)
  else
    let sub : Subscription :=
      { id := newId, type := et, channel := ch, market_ids := marketIds,
        token_ids := tokenIds, callback_type := cbType, events_received := 0 }
    let s1 : WSState :=
      { s with
        subscriptions := s.subscriptions ++ [sub],
        market_subscriptions := addFilters s.market_subscriptions marketIds newId,
        token_subscriptions := addFilters s.token_subscriptions tokenIds newId }
    match sendSubscription s1 sub with
    | Except.ok s2 => (Except.ok newId, s2)
    | Except.error e => (Except.error e, s1)

/-- Whether an id is present in the registry. -/
def isRegistered (s : WSState) (sid : String) : Bool :=
  (s.subscriptions.find? (fun x => x.id == sid)).isSome

/-- _send_unsubscription inside unsubscribe: returns silently when the
socket is closed; a send exception (the wireSend argument) is caught by the
caller. The unsubscribe frame is recorded only when the socket is open and
the write succeeds. -/
def sendUnsubscription (wireSend : Except String Unit) (s : WSState)
    (sub : Subscription) : WSState :=
  if socketConnected s sub.channel then
    match wireSend with
    | Except.ok _ => { s with sentFrames := s.sentFrames ++ [buildUnsubscribeFrame sub] }
    | Except.error _ => s
  else s

/-- WebSocketManager.unsubscribe: an unknown id returns False untouched; a
known id first attempts the wire-level unsubscribe (exceptions swallowed),
then removes the id from both secondary indexes and the registry and
returns True regardless of the send outcome. -/
def unsubscribe (wireSend : Except String Unit) (s : WSState) (sid : String) :
    Bool × WSState :=
  match s.subscriptions.find? (fun x => x.id == sid) with
  | none => (false, s)
  | some sub =>
      let s1 := sendUnsubscription wireSend s sub
      let s2 : WSState :=
        { s1 with
          market_subscriptions := discardFilters s1.market_subscriptions sub.market_ids sid,
          token_subscriptions := discardFilters s1.token_subscriptions sub.token_ids sid,
          subscriptions := s1.subscriptions.filter (fun x => !(x.id == sid)) }
      (true, s2)

/-- WebSocketManager.disconnect: close both sockets and reset the
connected and authenticated flags (idempotent). -/
def disconnect (s : WSState) : WSState :=
  { s with clob_connected := false, realtime_connected := false, authenticated := false }

/-- WebSocketManager.connect on the success path: both sockets come up;
the authenticated flag is the outcome of the optional CLOB handshake
(false when no credentials are configured or the handshake fails). -/
def connectOk (s : WSState) (auth : Bool) : WSState :=
  { s with clob_connected := true, realtime_connected := true, authenticated := auth }

/-- _resubscribe_all: send every active subscription frame, logging and
skipping per-subscription failures. -/
def resubscribeAll (s : WSState) : WSState :=
  s.subscriptions.foldl
    (fun st sub =>
      match sendSubscription st sub with
      | Except.ok st1 => st1
      | Except.error _ => st) s

/-- WebSocketManager.reconnect on the success path: bump reconnect_count,
wait the exponential backoff delay (not tracked in the state), disconnect,
connect, resubscribe all, and reset reconnect_attempts to zero. -/
def reconnectSuccess (s : WSState) (auth : Bool) : WSState :=
  { resubscribeAll
      (connectOk (disconnect { s with reconnect_count := s.reconnect_count + 1 }) auth)
    with reconnect_attempts := 0 }

/-! ## Event routing (find_matching and the delivery branches) -/

/-- WebSocketManager._find_matching_subscriptions: keep a subscription when
its event type equals the queried one, and each filter is enforced only
when both the subscription filter list and the event id are truthy. -/
def subMatches (sub : Subscription) (et : EventType) (mid tid : Option String) : Bool :=
  if sub.type != et then false
  else if listTruthy sub.market_ids && strOptTruthy mid
        && !((sub.market_ids.getD []).contains (mid.getD "")) then false
  else if listTruthy sub.token_ids && strOptTruthy tid
        && !((sub.token_ids.getD []).contains (tid.getD "")) then false
  else true

/-- The list of matching subscriptions, in registry order. -/
def findMatchingSubscriptions (subs : List Subscription) (et : EventType)
    (mid tid : Option String) : List Subscription :=
  subs.filter (fun sub => subMatches sub et mid tid)

/-- The matching predicate claim C3 states (spec section 4.3), written from
the words of the spec: type equality, and each filter either absent or
containing the event id. -/
def specSubMatches (sub : Subscription) (et : EventType) (mid tid : Option String) : Bool :=
  (sub.type == et) &&
  (sub.market_ids.isNone || (sub.market_ids.getD []).contains (mid.getD "")) &&
  (sub.token_ids.isNone || (sub.token_ids.getD []).contains (tid.getD ""))

/-- The five event types the router dispatches to a dedicated handler
(handle_message in websocket_manager.py). -/
inductive RoutedEvent
  | priceChange
  | orderbookUpdate
  | orderUpdate
  | tradeUpdate
  | marketResolution
deriving DecidableEq, Repr

def isPriceChange : RoutedEvent → Bool
  | .priceChange => true
  | _ => false

/-- The delivery branch of _handle_price_change for one matching
subscription: an if/elif pair, so at most one callback runs. The result
records (notification callback invoked, log callback invoked). -/
def priceChangeDelivery (cbType : String) (hasNotif hasLog : Bool) : Bool × Bool :=
  if cbType == "notification" && hasNotif then (true, false)
  else if cbType == "log" && hasLog then (false, true)
  else (false, false)

/-- The delivery branch of _handle_orderbook_update, _handle_order_update,
_handle_trade_update and _handle_market_resolution for one matching
subscription: these handlers only have the notification branch and never
consult the log callback. -/
def notificationOnlyDelivery (cbType : String) (hasNotif : Bool) : Bool × Bool :=
  if cbType == "notification" && hasNotif then (true, false) else (false, false)

/-- Which callbacks run for one matching subscription, by routed event. -/
def handlerDelivery (e : RoutedEvent) (cbType : String) (hasNotif hasLog : Bool) :
    Bool × Bool :=
  match e with
  | .priceChange => priceChangeDelivery cbType hasNotif hasLog
  | .orderbookUpdate => notificationOnlyDelivery cbType hasNotif
  | .orderUpdate => notificationOnlyDelivery cbType hasNotif
  | .tradeUpdate => notificationOnlyDelivery cbType hasNotif
  | .marketResolution => notificationOnlyDelivery cbType hasNotif

/-! ## Claim C3: routing precision of find_matching -/

lemma ite3_eq (c1 c2 c3 : Bool) :
    (if c1 = true then false else if c2 = true then false
     else if c3 = true then false else true) = (!c1 && !c2 && !c3) := by
  cases c1 <;> cases c2 <;> cases c3 <;> rfl

lemma subMatches_eq (sub : Subscription) (et : EventType) (mid tid : Option String) :
    subMatches sub et mid tid =
      (!(sub.type != et) &&
       !(listTruthy sub.market_ids && strOptTruthy mid
          && !((sub.market_ids.getD []).contains (mid.getD ""))) &&
       !(listTruthy sub.token_ids && strOptTruthy tid
          && !((sub.token_ids.getD []).contains (tid.getD "")))) := by
  unfold subMatches
  exact ite3_eq _ _ _

lemma filterBlock_false_iff (o : Option (List String)) (x : String) (hx : ¬ x = "") :
    (listTruthy o && strOptTruthy (some x) && !((o.getD []).contains x)) = false ↔
      (o = none ∨ o = some [] ∨ x ∈ o.getD []) := by
  have hs : strOptTruthy (some x) = true := by
    simp [strOptTruthy, hx]
  rcases o with _ | l
  · simp [listTruthy]
  · rcases l with _ | ⟨a, l⟩
    · simp [listTruthy]
    · simp [listTruthy, hs, List.elem_iff]
      tauto

lemma subMatches_true_iff (sub : Subscription) (et : EventType) (x y : String)
    (hx : ¬ x = "") (hy : ¬ y = "") :
    subMatches sub et (some x) (some y) = true ↔
      (sub.type = et ∧
       (sub.market_ids = none ∨ sub.market_ids = some [] ∨ x ∈ sub.market_ids.getD []) ∧
       (sub.token_ids = none ∨ sub.token_ids = some [] ∨ y ∈ sub.token_ids.getD [])) := by
  rw [subMatches_eq]
  simp only [Option.getD_some, Bool.and_eq_true, Bool.not_eq_true']
  rw [filterBlock_false_iff sub.market_ids x hx, filterBlock_false_iff sub.token_ids y hy]
  constructor
  · rintro ⟨⟨h1, h2⟩, h3⟩
    refine ⟨?_, h2, h3⟩
    by_contra hne
    rw [bne_iff_ne.mpr hne] at h1
    simp at h1
  · rintro ⟨h1, h2, h3⟩
    refine ⟨⟨?_, h2⟩, h3⟩
    rw [h1]
    simp

/-- A subscription filtered to market M1 and carrying no token filter, used
as a concrete routing example. -/
def c3Sub : Subscription :=
  { id := "sub1", type := EventType.price_change, channel := ChannelType.CLOB_MARKET,
    market_ids := some ["M1"], token_ids := none, callback_type := "notification",
    events_received := 0 }

/-- Counterexample to claim C3: an event whose market id is the empty
string is matched to a subscription filtered to M1 only, because the source
guard (sub.market_ids and market_id) treats the falsy empty string as no
market id and skips the filter, while the claimed predicate (no market
filter OR market id in the filter list) rejects it. -/
theorem C3_counterexample :
    findMatchingSubscriptions [c3Sub] EventType.price_change (some "") (some "T1") =
      [c3Sub] ∧
    specSubMatches c3Sub EventType.price_change (some "") (some "T1") = false := by
  constructor <;> rfl

/-- Claim C3 as amended: for events that carry a nonempty market id and a
nonempty token id, find_matching returns exactly the subscriptions whose
event type matches and whose market filter (when present and nonempty)
contains the market id and whose token filter (when present and nonempty)
contains the token id; an absent or empty filter list matches everything.
In particular an event for market M2 is never matched to a subscription
filtered to M1 only. Events with an absent or empty id bypass that filter
entirely (the counterexample). -/
theorem C3_routing_amended (subs : List Subscription) (et : EventType)
    (x y : String) (sub : Subscription) (hx : ¬ x = "") (hy : ¬ y = "") :
    sub ∈ findMatchingSubscriptions subs et (some x) (some y) ↔
      (sub ∈ subs ∧ sub.type = et ∧
       (sub.market_ids = none ∨ sub.market_ids = some [] ∨ x ∈ sub.market_ids.getD []) ∧
       (sub.token_ids = none ∨ sub.token_ids = some [] ∨ y ∈ sub.token_ids.getD [])) := by
  rw [findMatchingSubscriptions, List.mem_filter,
    subMatches_true_iff sub et x y hx hy]

/-- Witness for the amended claim C3 at a concrete registry and event. -/
theorem C3_routing_amended_witness :
    c3Sub ∈ findMatchingSubscriptions [c3Sub] EventType.price_change
        (some "M1") (some "T1") ↔
      (c3Sub ∈ [c3Sub] ∧ c3Sub.type = EventType.price_change ∧
       (c3Sub.market_ids = none ∨ c3Sub.market_ids = some [] ∨
         "M1" ∈ c3Sub.market_ids.getD []) ∧
       (c3Sub.token_ids = none ∨ c3Sub.token_ids = some [] ∨
         "T1" ∈ c3Sub.token_ids.getD [])) :=
  C3_routing_amended [c3Sub] EventType.price_change "M1" "T1" c3Sub
    (by decide) (by decide)

/-! ## Claim C4: delivery callback selection per routed event -/

/-- Counterexample to claim C4: for a trade-update event and a matching
subscription in log delivery mode, with both callbacks configured, the
handler invokes neither callback (the trade handler has no log branch),
not exactly one. -/
theorem C4_counterexample :
    (handlerDelivery RoutedEvent.tradeUpdate "log" true true).1 = false ∧
    (handlerDelivery RoutedEvent.tradeUpdate "log" true true).2 = false := by
  constructor <;> rfl

/-- Claim C4 as amended: per matching subscription and routed event, the
two callbacks are never both invoked; with both callbacks configured, the
notification callback runs exactly when the delivery mode is notification,
while the log callback runs only for price-change events in log mode — the
orderbook-update, order-update, trade-update and market-resolution
handlers never invoke the log callback, so a log-mode subscription
receives no callback at all for those events. -/
theorem C4_delivery_amended (e : RoutedEvent) (cbType : String)
    (hasNotif hasLog : Bool) :
    (¬ ((handlerDelivery e cbType hasNotif hasLog).1 = true ∧
        (handlerDelivery e cbType hasNotif hasLog).2 = true)) ∧
    handlerDelivery e cbType true true =
      ((cbType == "notification"), isPriceChange e && (cbType == "log")) := by
  constructor
  · cases e <;>
      simp only [handlerDelivery, priceChangeDelivery, notificationOnlyDelivery] <;>
      by_cases h : cbType = "notification" <;>
      by_cases h2 : cbType = "log" <;>
      cases hasNotif <;> cases hasLog <;> simp_all
  · cases e <;>
      simp only [handlerDelivery, priceChangeDelivery, notificationOnlyDelivery,
        isPriceChange] <;>
      by_cases h : cbType = "notification" <;>
      by_cases h2 : cbType = "log" <;> simp_all

/-! ## Claim C6: idempotent unsubscribe -/

lemma sendUnsubscription_subs (w : Except String Unit) (s : WSState)
    (sub : Subscription) :
    (sendUnsubscription w s sub).subscriptions = s.subscriptions := by
  unfold sendUnsubscription
  split
  · cases w <;> rfl
  · rfl

lemma sendUnsubscription_markets (w : Except String Unit) (s : WSState)
    (sub : Subscription) :
    (sendUnsubscription w s sub).market_subscriptions = s.market_subscriptions := by
  unfold sendUnsubscription
  split
  · cases w <;> rfl
  · rfl

lemma sendUnsubscription_tokens (w : Except String Unit) (s : WSState)
    (sub : Subscription) :
    (sendUnsubscription w s sub).token_subscriptions = s.token_subscriptions := by
  unfold sendUnsubscription
  split
  · cases w <;> rfl
  · rfl

lemma find?_filter_ne (l : List Subscription) (sid : String) :
    (l.filter (fun x => !(x.id == sid))).find? (fun x => x.id == sid) = none := by
  rw [List.find?_eq_none]
  intro a ha
  have hp := List.of_mem_filter ha
  simp only [Bool.not_eq_true'] at hp
  simp [hp]

lemma unsubscribe_found (r : Except String Unit) (s : WSState) (sid : String)
    (sub : Subscription)
    (h : s.subscriptions.find? (fun x => x.id == sid) = some sub) :
    unsubscribe r s sid =
      (true,
        { sendUnsubscription r s sub with
          market_subscriptions :=
            discardFilters (sendUnsubscription r s sub).market_subscriptions
              sub.market_ids sid,
          token_subscriptions :=
            discardFilters (sendUnsubscription r s sub).token_subscriptions
              sub.token_ids sid,
          subscriptions :=
            (sendUnsubscription r s sub).subscriptions.filter
              (fun x => !(x.id == sid)) }) := by
  unfold unsubscribe
  rw [h]

lemma unsubscribe_missing (r : Except String Unit) (s : WSState) (sid : String)
    (h : s.subscriptions.find? (fun x => x.id == sid) = none) :
    unsubscribe r s sid = (false, s) := by
  unfold unsubscribe
  rw [h]

/-- Claim C6: unsubscribe is idempotent and total: a registered id is
removed with result True and a second call returns False; an id that was
never registered returns False and leaves the state untouched. The send
outcome arguments show no wire failure changes this. -/
theorem C6_unsubscribe_idempotent (r1 r2 : Except String Unit) (s : WSState)
    (sid : String) :
    (isRegistered s sid = true →
      (unsubscribe r1 s sid).1 = true ∧
      (unsubscribe r2 (unsubscribe r1 s sid).2 sid).1 = false) ∧
    (isRegistered s sid = false →
      (unsubscribe r1 s sid).1 = false ∧ (unsubscribe r1 s sid).2 = s) := by
  constructor
  · intro h
    unfold isRegistered at h
    obtain ⟨sub, hsub⟩ := Option.isSome_iff_exists.mp h
    rw [unsubscribe_found r1 s sid sub hsub]
    have hnone : ((sendUnsubscription r1 s sub).subscriptions.filter
        (fun x => !(x.id == sid))).find? (fun x => x.id == sid) = none :=
      find?_filter_ne _ sid
    rw [unsubscribe_missing r2 _ sid hnone]
    exact ⟨rfl, rfl⟩
  · intro h
    unfold isRegistered at h
    have h0 : s.subscriptions.find? (fun x => x.id == sid) = none := by
      cases hf : s.subscriptions.find? (fun x => x.id == sid) with
      | none => rfl
      | some sub => rw [hf] at h; simp at h
    rw [unsubscribe_missing r1 s sid h0]
    exact ⟨rfl, rfl⟩

/-- A concrete subscription and manager state used by the witnesses. -/
def exSub : Subscription :=
  { id := "s1", type := EventType.price_change, channel := ChannelType.CLOB_MARKET,
    market_ids := some ["M1"], token_ids := some ["T1"],
    callback_type := "notification", events_received := 0 }

def exState : WSState :=
  { subscriptions := [exSub],
    market_subscriptions := [("M1", ["s1"])],
    token_subscriptions := [("T1", ["s1"])],
    clob_connected := true, realtime_connected := true, authenticated := false,
    reconnect_attempts := 0, reconnect_count := 0, sentFrames := [] }

/-- Witness for claim C6 on a concrete state, exercising both the
registered and the unknown-id branches. -/
theorem C6_unsubscribe_idempotent_witness :
    ((unsubscribe (Except.ok ()) exState "s1").1 = true ∧
      (unsubscribe (Except.ok ())
        (unsubscribe (Except.ok ()) exState "s1").2 "s1").1 = false) ∧
    ((unsubscribe (Except.ok ()) exState "zz").1 = false ∧
      (unsubscribe (Except.ok ()) exState "zz").2 = exState) :=
  ⟨(C6_unsubscribe_idempotent (Except.ok ()) (Except.ok ()) exState "s1").1
      (by decide),
   (C6_unsubscribe_idempotent (Except.ok ()) (Except.ok ()) exState "zz").2
      (by decide)⟩

/-! ## Claim C5: resubscribe-all on reconnect -/

lemma sendSubscription_connected (s : WSState) (sub : Subscription)
    (hc : s.clob_connected = true) (hr : s.realtime_connected = true) :
    sendSubscription s sub =
      Except.ok { s with sentFrames := s.sentFrames ++ [buildSubscribeFrame sub] } := by
  unfold sendSubscription socketConnected
  cases h : usesClobSocket sub.channel <;> simp [h, hc, hr]

lemma resubFold_eq (l : List Subscription) :
    ∀ s : WSState, s.clob_connected = true → s.realtime_connected = true →
      l.foldl
        (fun st sub =>
          match sendSubscription st sub with
          | Except.ok st1 => st1
          | Except.error _ => st) s =
      { s with sentFrames := s.sentFrames ++ l.map buildSubscribeFrame } := by
  induction l with
  | nil => intro s hc hr; simp
  | cons a l ih =>
      intro s hc hr
      simp only [List.foldl_cons, List.map_cons]
      rw [sendSubscription_connected s a hc hr]
      rw [ih { s with sentFrames := s.sentFrames ++ [buildSubscribeFrame a] } hc hr]
      simp

lemma resubscribeAll_eq (s : WSState)
    (hc : s.clob_connected = true) (hr : s.realtime_connected = true) :
    resubscribeAll s =
      { s with sentFrames := s.sentFrames ++ s.subscriptions.map buildSubscribeFrame } :=
  resubFold_eq s.subscriptions s hc hr

/-- Claim C5: starting from any manager state, after disconnect() followed
by a successful reconnect() every subscription id is still present in the
registry (the registry is untouched), the subscribe frame of every active
subscription is retransmitted exactly once (the frames appended to the wire
log are exactly one per registered subscription, in registry order), and
the reconnect attempt counter is reset to zero. -/
theorem C5_reconnect_resubscribes_all (s : WSState) (auth : Bool) :
    (reconnectSuccess (disconnect s) auth).subscriptions = s.subscriptions ∧
    (reconnectSuccess (disconnect s) auth).sentFrames =
      s.sentFrames ++ s.subscriptions.map buildSubscribeFrame ∧
    (reconnectSuccess (disconnect s) auth).reconnect_attempts = 0 := by
  unfold reconnectSuccess
  rw [resubscribeAll_eq
    (connectOk
      (disconnect
        { disconnect s with reconnect_count := (disconnect s).reconnect_count + 1 })
      auth) rfl rfl]
  exact ⟨rfl, rfl, rfl⟩

/-! ## Claim C8: failed authentication and fail-fast user subscriptions -/

/-- Outcome of the CLOB authentication handshake as observed by
_authenticate_clob: the bounded wait times out, the send or receive raises,
or a response frame arrives carrying an optional type discriminator. -/
inductive AuthOutcome
  | handshakeTimeout
  | handshakeError
  | response (typeField : Option String)
deriving DecidableEq, Repr

/-- Whether _authenticate_clob marks the connection authenticated: only an
explicit response frame whose type field is the string authenticated. -/
def authResponseOk : AuthOutcome → Bool
  | .response t => t == some "authenticated"
  | _ => false

/-- _authenticate_clob: every path assigns the authenticated flag and
swallows its exceptions; only the explicit success response sets it true. -/
def authenticateClob (s : WSState) (o : AuthOutcome) : WSState :=
  { s with authenticated := authResponseOk o }

lemma subscribe_unauth_user (s : WSState) (uid : String) (et : EventType)
    (mids tids : Option (List String)) (cb : String)
    (h : s.authenticated = false) :
    subscribe s uid et ChannelType.CLOB_USER mids tids cb =
      (Except.error "CLOB authentication required for user subscriptions", s) := by
  unfold subscribe
  rw [if_pos ⟨rfl, h⟩]

lemma subscribe_sends_ok (s : WSState) (uid : String) (et : EventType)
    (ch : ChannelType) (mids tids : Option (List String)) (cb : String)
    (hna : ¬ (ch = ChannelType.CLOB_USER ∧ s.authenticated = false))
    (hconn : socketConnected s ch = true) :
    (subscribe s uid et ch mids tids cb).1 = Except.ok uid := by
  unfold subscribe
  rw [if_neg hna]
  simp only [sendSubscription, socketConnected] at hconn ⊢
  cases hcs : usesClobSocket ch <;> rw [hcs] at hconn <;> simp at hconn <;>
    simp [hcs, hconn]

/-- Claim C8: a handshake that times out, raises, or receives a
non-success response leaves authenticated = false without raising;
afterwards every subscribe on the authenticated-only CLOB_USER channel
fails fast with the authentication-required error and leaves the state
untouched, while a subscribe on the public CLOB_MARKET channel (its socket
being connected) still succeeds. -/
theorem C8_auth_failure_fail_fast (s : WSState) (o : AuthOutcome)
    (ho : authResponseOk o = false) (hclob : s.clob_connected = true)
    (uid1 uid2 : String) (et1 et2 : EventType)
    (mids1 tids1 mids2 tids2 : Option (List String)) (cb1 cb2 : String) :
    (authenticateClob s o).authenticated = false ∧
    (subscribe (authenticateClob s o) uid1 et1 ChannelType.CLOB_USER
        mids1 tids1 cb1).1 =
      Except.error "CLOB authentication required for user subscriptions" ∧
    (subscribe (authenticateClob s o) uid1 et1 ChannelType.CLOB_USER
        mids1 tids1 cb1).2 = authenticateClob s o ∧
    (subscribe (authenticateClob s o) uid2 et2 ChannelType.CLOB_MARKET
        mids2 tids2 cb2).1 = Except.ok uid2 := by
  have hflag : (authenticateClob s o).authenticated = false := by
    simp [authenticateClob, ho]
  have hsub := subscribe_unauth_user (authenticateClob s o) uid1 et1 mids1 tids1 cb1 hflag
  refine ⟨hflag, ?_, ?_, ?_⟩
  · rw [hsub]
  · rw [hsub]
  · refine subscribe_sends_ok _ uid2 et2 ChannelType.CLOB_MARKET mids2 tids2 cb2 ?_ ?_
    · intro hcontra
      exact absurd hcontra.1 (by decide)
    · simpa [socketConnected, usesClobSocket, authenticateClob] using hclob

/-- Witness for claim C8: timeout of the handshake on a connected manager,
then a user-channel and a market-channel subscribe. -/
theorem C8_auth_failure_fail_fast_witness :
    (authenticateClob exState AuthOutcome.handshakeTimeout).authenticated = false ∧
    (subscribe (authenticateClob exState AuthOutcome.handshakeTimeout) "u1"
        EventType.order ChannelType.CLOB_USER none none "notification").1 =
      Except.error "CLOB authentication required for user subscriptions" ∧
    (subscribe (authenticateClob exState AuthOutcome.handshakeTimeout) "u1"
        EventType.order ChannelType.CLOB_USER none none "notification").2 =
      authenticateClob exState AuthOutcome.handshakeTimeout ∧
    (subscribe (authenticateClob exState AuthOutcome.handshakeTimeout) "u2"
        EventType.price_change ChannelType.CLOB_MARKET none none "notification").1 =
      Except.ok "u2" :=
  C8_auth_failure_fail_fast exState AuthOutcome.handshakeTimeout (by decide) (by decide)
    "u1" "u2" EventType.order EventType.price_change none none none none
    "notification" "notification"

/-! ## Secondary-index lemmas for claims C9 and C10 -/

lemma indexGet_cons_pos {k key : String} {ids : List String}
    {rest : List (String × List String)} (h : (k == key) = true) :
    indexGet ((k, ids) :: rest) key = ids := by
  simp [indexGet, List.find?, h]

lemma indexGet_cons_neg {k key : String} {ids : List String}
    {rest : List (String × List String)} (h : (k == key) = false) :
    indexGet ((k, ids) :: rest) key = indexGet rest key := by
  simp [indexGet, List.find?, h]

lemma indexGet_indexAdd_self (idx : List (String × List String)) (key sid : String) :
    sid ∈ indexGet (indexAdd idx key sid) key := by
  induction idx with
  | nil =>
      rw [show indexAdd [] key sid = [(key, [sid])] from rfl,
        indexGet_cons_pos (by simp)]
      simp
  | cons p rest ih =>
      obtain ⟨k, ids⟩ := p
      cases hk : (k == key) with
      | true =>
          simp only [indexAdd, if_pos hk]
          rw [indexGet_cons_pos hk]
          split
          · next hmem => exact hmem
          · simp
      | false =>
          simp only [indexAdd]
          rw [if_neg (show ¬((k == key) = true) by simp [hk])]
          rw [indexGet_cons_neg hk]
          exact ih

lemma indexGet_indexAdd_mono (idx : List (String × List String))
    (key sid m x : String) (hin : x ∈ indexGet idx m) :
    x ∈ indexGet (indexAdd idx key sid) m := by
  induction idx with
  | nil => simp [indexGet] at hin
  | cons p rest ih =>
      obtain ⟨k, ids⟩ := p
      cases hk : (k == key) with
      | true =>
          simp only [indexAdd, if_pos hk]
          cases hm : (k == m) with
          | true =>
              rw [indexGet_cons_pos hm] at hin
              rw [indexGet_cons_pos hm]
              split
              · exact hin
              · exact List.mem_append_left _ hin
          | false =>
              rw [indexGet_cons_neg hm] at hin
              rw [indexGet_cons_neg hm]
              exact hin
      | false =>
          simp only [indexAdd]
          rw [if_neg (show ¬((k == key) = true) by simp [hk])]
          cases hm : (k == m) with
          | true =>
              rw [indexGet_cons_pos hm] at hin
              rw [indexGet_cons_pos hm]
              exact hin
          | false =>
              rw [indexGet_cons_neg hm] at hin
              rw [indexGet_cons_neg hm]
              exact ih hin

lemma foldl_indexAdd_preserve (l : List String) :
    ∀ (idx : List (String × List String)) (sid m x : String),
      x ∈ indexGet idx m →
      x ∈ indexGet (l.foldl (fun acc k => indexAdd acc k sid) idx) m := by
  induction l with
  | nil => intro idx sid m x h; exact h
  | cons a l ih =>
      intro idx sid m x h
      simp only [List.foldl_cons]
      exact ih _ _ _ _ (indexGet_indexAdd_mono idx a sid m x h)

lemma foldl_indexAdd_mem (l : List String) :
    ∀ (idx : List (String × List String)) (sid m : String), m ∈ l →
      sid ∈ indexGet (l.foldl (fun acc k => indexAdd acc k sid) idx) m := by
  induction l with
  | nil => intro idx sid m h; simp at h
  | cons a l ih =>
      intro idx sid m h
      simp only [List.foldl_cons]
      rcases List.mem_cons.mp h with h | h
      · subst h
        exact foldl_indexAdd_preserve l _ _ _ _ (indexGet_indexAdd_self idx m sid)
      · exact ih _ _ _ h

lemma indexGet_indexDiscard_self (idx : List (String × List String))
    (key sid : String) :
    sid ∉ indexGet (indexDiscard idx key sid) key := by
  induction idx with
  | nil =>
      rw [show indexDiscard [] key sid = [(key, [])] from rfl,
        indexGet_cons_pos (by simp)]
      simp
  | cons p rest ih =>
      obtain ⟨k, ids⟩ := p
      cases hk : (k == key) with
      | true =>
          simp only [indexDiscard, if_pos hk]
          rw [indexGet_cons_pos hk]
          simp [List.mem_filter]
      | false =>
          simp only [indexDiscard]
          rw [if_neg (show ¬((k == key) = true) by simp [hk])]
          rw [indexGet_cons_neg hk]
          exact ih

lemma indexGet_indexDiscard_mono (idx : List (String × List String))
    (key sid m x : String) (h : x ∉ indexGet idx m) :
    x ∉ indexGet (indexDiscard idx key sid) m := by
  induction idx with
  | nil =>
      cases hm : (key == m) with
      | true =>
          rw [show indexDiscard [] key sid = [(key, [])] from rfl,
            indexGet_cons_pos hm]
          simp
      | false =>
          rw [show indexDiscard [] key sid = [(key, [])] from rfl,
            indexGet_cons_neg hm]
          simp [indexGet]
  | cons p rest ih =>
      obtain ⟨k, ids⟩ := p
      cases hk : (k == key) with
      | true =>
          simp only [indexDiscard, if_pos hk]
          cases hm : (k == m) with
          | true =>
              rw [indexGet_cons_pos hm] at h
              rw [indexGet_cons_pos hm]
              intro hmem
              exact h (List.mem_of_mem_filter hmem)
          | false =>
              rw [indexGet_cons_neg hm] at h
              rw [indexGet_cons_neg hm]
              exact h
      | false =>
          simp only [indexDiscard]
          rw [if_neg (show ¬((k == key) = true) by simp [hk])]
          cases hm : (k == m) with
          | true =>
              rw [indexGet_cons_pos hm] at h
              rw [indexGet_cons_pos hm]
              exact h
          | false =>
              rw [indexGet_cons_neg hm] at h
              rw [indexGet_cons_neg hm]
              exact ih h

lemma foldl_indexDiscard_preserve (l : List String) :
    ∀ (idx : List (String × List String)) (sid m x : String),
      x ∉ indexGet idx m →
      x ∉ indexGet (l.foldl (fun acc k => indexDiscard acc k sid) idx) m := by
  induction l with
  | nil => intro idx sid m x h; exact h
  | cons a l ih =>
      intro idx sid m x h
      simp only [List.foldl_cons]
      exact ih _ _ _ _ (indexGet_indexDiscard_mono idx a sid m x h)

lemma foldl_indexDiscard_not_mem (l : List String) :
    ∀ (idx : List (String × List String)) (sid m : String), m ∈ l →
      sid ∉ indexGet (l.foldl (fun acc k => indexDiscard acc k sid) idx) m := by
  induction l with
  | nil => intro idx sid m h; simp at h
  | cons a l ih =>
      intro idx sid m h
      simp only [List.foldl_cons]
      rcases List.mem_cons.mp h with h | h
      · subst h
        exact foldl_indexDiscard_preserve l _ _ _ _ (indexGet_indexDiscard_self idx m sid)
      · exact ih _ _ _ h

/-! ## Claim C9: subscribe stores before sending -/

lemma find?_append_isSome (l : List Subscription) (sub : Subscription)
    (sid : String) (hs : (sub.id == sid) = true) :
    ((l ++ [sub]).find? (fun x => x.id == sid)).isSome = true := by
  induction l with
  | nil => simp [List.find?, hs]
  | cons a l ih =>
      cases ha : (a.id == sid) with
      | true => simp [List.find?, ha]
      | false => simpa [List.find?, ha] using ih

lemma subscribe_send_fails (s : WSState) (uid : String) (et : EventType)
    (ch : ChannelType) (mids tids : Option (List String)) (cb : String)
    (hna : ¬ (ch = ChannelType.CLOB_USER ∧ s.authenticated = false))
    (hconn : socketConnected s ch = false) :
    subscribe s uid et ch mids tids cb =
      (Except.error (socketErrorMsg ch),
        { s with
          subscriptions := s.subscriptions ++
            [{ id := uid, type := et, channel := ch, market_ids := mids,
               token_ids := tids, callback_type := cb, events_received := 0 }],
          market_subscriptions := addFilters s.market_subscriptions mids uid,
          token_subscriptions := addFilters s.token_subscriptions tids uid }) := by
  unfold subscribe
  rw [if_neg hna]
  simp only [sendSubscription, socketConnected] at hconn ⊢
  cases hcs : usesClobSocket ch <;> rw [hcs] at hconn <;> simp at hconn <;>
    simp [hcs, hconn, socketErrorMsg]

/-- Claim C9: subscribe is not atomic on error: it stores the new
subscription in the registry and the market and token secondary indexes
before sending the wire frame, so when the needed socket is not connected
the RuntimeError propagates to the caller while the subscription remains
registered and indexed. -/
theorem C9_subscribe_not_atomic (s : WSState) (newId : String) (et : EventType)
    (ch : ChannelType) (mids tids : Option (List String)) (cb : String)
    (hauth : ¬ (ch = ChannelType.CLOB_USER ∧ s.authenticated = false))
    (hconn : socketConnected s ch = false) :
    (subscribe s newId et ch mids tids cb).1 = Except.error (socketErrorMsg ch) ∧
    isRegistered (subscribe s newId et ch mids tids cb).2 newId = true ∧
    (∀ m ∈ mids.getD [],
      newId ∈ indexGet (subscribe s newId et ch mids tids cb).2.market_subscriptions m) ∧
    (∀ t ∈ tids.getD [],
      newId ∈ indexGet (subscribe s newId et ch mids tids cb).2.token_subscriptions t) := by
  rw [subscribe_send_fails s newId et ch mids tids cb hauth hconn]
  refine ⟨rfl, ?_, ?_, ?_⟩
  · unfold isRegistered
    exact find?_append_isSome s.subscriptions _ newId (by simp)
  · intro m hm
    cases mids with
    | none => simp at hm
    | some l =>
        simp only [Option.getD_some] at hm
        exact foldl_indexAdd_mem l s.market_subscriptions newId m hm
  · intro t ht
    cases tids with
    | none => simp at ht
    | some l =>
        simp only [Option.getD_some] at ht
        exact foldl_indexAdd_mem l s.token_subscriptions newId t ht

/-- A manager state whose real-time socket is down, for the C9 witness. -/
def exStateDown : WSState := { exState with realtime_connected := false }

/-- Witness for claim C9: subscribing on the activity channel while the
real-time socket is down raises, yet the subscription is registered and
indexed. -/
theorem C9_subscribe_not_atomic_witness :
    (subscribe exStateDown "s2" EventType.trades ChannelType.ACTIVITY
        (some ["M2"]) (some ["T2"]) "log").1 =
      Except.error (socketErrorMsg ChannelType.ACTIVITY) ∧
    isRegistered (subscribe exStateDown "s2" EventType.trades ChannelType.ACTIVITY
        (some ["M2"]) (some ["T2"]) "log").2 "s2" = true ∧
    "s2" ∈ indexGet (subscribe exStateDown "s2" EventType.trades ChannelType.ACTIVITY
        (some ["M2"]) (some ["T2"]) "log").2.market_subscriptions "M2" ∧
    "s2" ∈ indexGet (subscribe exStateDown "s2" EventType.trades ChannelType.ACTIVITY
        (some ["M2"]) (some ["T2"]) "log").2.token_subscriptions "T2" := by
  have h := C9_subscribe_not_atomic exStateDown "s2" EventType.trades
    ChannelType.ACTIVITY (some ["M2"]) (some ["T2"]) "log" (by decide) (by decide)
  exact ⟨h.1, h.2.1, h.2.2.1 "M2" (by decide), h.2.2.2 "T2" (by decide)⟩

/-! ## Claim C10: unsubscribe removes locally whatever the wire send does -/

/-- Claim C10: for a registered id, unsubscribe returns True and removes
the subscription from the registry and from both secondary indexes, for
every wire-send outcome: the send exception is caught and local removal
never depends on wire-send success. -/
theorem C10_unsubscribe_always_removes (r : Except String Unit) (s : WSState)
    (sid : String) (sub : Subscription)
    (h : s.subscriptions.find? (fun x => x.id == sid) = some sub) :
    (unsubscribe r s sid).1 = true ∧
    isRegistered (unsubscribe r s sid).2 sid = false ∧
    (∀ m ∈ sub.market_ids.getD [],
      sid ∉ indexGet ((unsubscribe r s sid).2.market_subscriptions) m) ∧
    (∀ t ∈ sub.token_ids.getD [],
      sid ∉ indexGet ((unsubscribe r s sid).2.token_subscriptions) t) := by
  rw [unsubscribe_found r s sid sub h]
  refine ⟨rfl, ?_, ?_, ?_⟩
  · unfold isRegistered
    simp only []
    rw [find?_filter_ne]
    rfl
  · intro m hm
    cases hmi : sub.market_ids with
    | none => rw [hmi] at hm; simp at hm
    | some l =>
        rw [hmi] at hm
        simp only [Option.getD_some] at hm
        simp only [hmi]
        exact foldl_indexDiscard_not_mem l
          (sendUnsubscription r s sub).market_subscriptions sid m hm
  · intro t ht
    cases hti : sub.token_ids with
    | none => rw [hti] at ht; simp at ht
    | some l =>
        rw [hti] at ht
        simp only [Option.getD_some] at ht
        simp only [hti]
        exact foldl_indexDiscard_not_mem l
          (sendUnsubscription r s sub).token_subscriptions sid t ht

/-- Witness for claim C10: a failing wire send still removes the
subscription and its index entries. -/
theorem C10_unsubscribe_always_removes_witness :
    (unsubscribe (Except.error "send failed") exState "s1").1 = true ∧
    isRegistered (unsubscribe (Except.error "send failed") exState "s1").2 "s1" = false ∧
    "s1" ∉ indexGet
      ((unsubscribe (Except.error "send failed") exState "s1").2.market_subscriptions) "M1" ∧
    "s1" ∉ indexGet
      ((unsubscribe (Except.error "send failed") exState "s1").2.token_subscriptions) "T1" := by
  have h := C10_unsubscribe_always_removes (Except.error "send failed") exState "s1"
    exSub (by decide)
  exact ⟨h.1, h.2.1, h.2.2.1 "M1" (by decide), h.2.2.2 "T1" (by decide)⟩

end PolymarketMCP

